import Mathlib

/-!
Shallow embedding of the appointment negotiation core of the stylists-api
repository (src/controllers/appointmentController.js) together with the
credential-verification path (src/utils/passwordUtils.js and the login
handler of src/controllers/userController.js).

Modelling conventions:
- JSON `null` / absent fields are `Option.none`; JS truthiness of an
  optional string is "present and non-empty", of an optional number
  "present and non-zero" (0 is falsy in JS).
- `new Date().toISOString()` is an opaque `now : String` argument.
- The in-memory `appointments` array is a `List Appointment`; handlers
  return the new list together with an `Except ApiError` outcome, the
  functional image of mutate-then-respond. `saveAppointments()` writes the
  returned list to disk and is not modelled further.
- `new Date(a.date + 'T' + a.time)` is modelled by parsing the documented
  ISO `YYYY-MM-DD` / `HH:MM` formats into a Nat key that is monotone in
  the chronological order; a malformed string gives NaN in JS (whose sort
  behaviour is implementation-defined) and is mapped to key 0 here, so
  order-related claims are stated for well-formed records only.
- bcrypt hashing/comparison are external collaborators and enter as
  function parameters.
-/

/-- Stylist record; only the `id` field is consulted by the appointment
handlers, so the embedding keeps just that field. -/
structure Stylist where
  id : Int
deriving Repr, DecidableEq

/-- Appointment record, with exactly the fields built by
`createAppointment` in appointmentController.js. -/
structure Appointment where
  id : Int
  stylistId : Int
  userId : Option Int
  purpose : String
  date : String
  time : String
  customerName : String
  customerEmail : String
  customerPhone : String
  services : List String
  status : String
  suggestedDate : Option String
  suggestedTime : Option String
  createdAt : String
  updatedAt : String
deriving Repr, DecidableEq

/-- Error outcomes of the appointment and login handlers, one constructor
per distinct error response in the source. -/
inductive ApiError where
  | missingFields
  | stylistNotFound
  | appointmentNotFound
  | suggestionFieldsRequired
  | noSuggestionPending
deriving Repr, DecidableEq

/-- HTTP status code attached to each error response in the source. -/
def ApiError.httpStatus : ApiError → Nat
  | .missingFields => 400
  | .stylistNotFound => 404
  | .appointmentNotFound => 404
  | .suggestionFieldsRequired => 400
  | .noSuggestionPending => 400

/-- JS truthiness of an optional string: absent, null and the empty
string are falsy. -/
def truthyOptStr : Option String → Bool
  | none => false
  | some s => s ≠ ""

/-- JS truthiness of an optional number: absent, null and 0 are falsy. -/
def truthyOptInt : Option Int → Bool
  | none => false
  | some n => n ≠ 0

/-- Executable embedding of JS `String.prototype.trim`: drop whitespace
from both ends (kept as a list computation so that proofs and witnesses
can evaluate it). -/
def jsTrim (s : String) : String :=
  String.mk
    (((s.toList.dropWhile Char.isWhitespace).reverse.dropWhile
      Char.isWhitespace).reverse)

/-- Executable embedding of JS `String.prototype.toLowerCase` on the
ASCII range used by the repository. -/
def jsToLower (s : String) : String := String.mk (s.toList.map Char.toLower)

/-- Character-list core of `jsStartsWith`. -/
def startsWithChars : List Char → List Char → Bool
  | [], _ => true
  | _ :: _, [] => false
  | c :: cs, d :: ds => c == d && startsWithChars cs ds

/-- Executable embedding of JS `String.prototype.startsWith`. -/
def jsStartsWith (s pat : String) : Bool := startsWithChars pat.toList s.toList

/-- Request body of `POST /api/appointments`, after JSON parsing; every
field may be absent. -/
structure CreateRequest where
  stylistId : Option Int
  userId : Option Int
  purpose : Option String
  date : Option String
  time : Option String
  customerName : Option String
  customerEmail : Option String
  customerPhone : Option String
  services : Option (List String)
deriving Repr, DecidableEq

/-- The `maxId` computation of `createAppointment`:
`appointments.length > 0 ? Math.max(...appointments.map(a => a.id)) : 0`. -/
def maxApptId : List Appointment → Int
  | [] => 0
  | a :: rest => rest.foldl (fun m b => max m b.id) a.id

/-- The `customerName ? customerName.trim() : ''` pattern. -/
def jsOptTrim : Option String → String
  | none => ""
  | some s => if s = "" then "" else jsTrim s

/-- The `customerEmail ? customerEmail.trim().toLowerCase() : ''` pattern. -/
def jsOptTrimLower : Option String → String
  | none => ""
  | some s => if s = "" then "" else jsToLower (jsTrim s)

/-- Embedding of `createAppointment`: validates required fields by JS
truthiness, looks up the stylist, allocates `maxApptId + 1`, and appends
the new record. -/
def createAppointment (req : CreateRequest) (stylists : List Stylist)
    (appts : List Appointment) (now : String) :
    List Appointment × Except ApiError Appointment :=
  match req.stylistId, req.purpose, req.date, req.time with
  | some sid, some purpose, some date, some time =>
    if sid = 0 ∨ purpose = "" ∨ date = "" ∨ time = "" then
      (appts, .error .missingFields)
    else
      match stylists.find? (fun s => s.id == sid) with
      | none => (appts, .error .stylistNotFound)
      | some _ =>
        let newId := maxApptId appts + 1
        let a : Appointment :=
          { id := newId
            stylistId := sid
            userId := match req.userId with
              | some u => if u = 0 then none else some u
              | none => none
            purpose := jsTrim purpose
            date := jsTrim date
            time := jsTrim time
            customerName := jsOptTrim req.customerName
            customerEmail := jsOptTrimLower req.customerEmail
            customerPhone := jsOptTrim req.customerPhone
            services := req.services.getD []
            status := "pending"
            suggestedDate := none
            suggestedTime := none
            createdAt := now
            updatedAt := now }
        (appts ++ [a], .ok a)
  | _, _, _, _ => (appts, .error .missingFields)

/-- Numeric value of one decimal digit character. -/
def digitVal (c : Char) : Nat := c.toNat - '0'.toNat

/-- Chronologically monotone key of a well-formed ISO `YYYY-MM-DD` date
string; `none` on any other shape (JS `Date` would give NaN or an
implementation-defined fallback there). -/
def parseISODate (s : String) : Option Nat :=
  match s.toList with
  | [y1, y2, y3, y4, '-', m1, m2, '-', d1, d2] =>
    if y1.isDigit ∧ y2.isDigit ∧ y3.isDigit ∧ y4.isDigit ∧
        m1.isDigit ∧ m2.isDigit ∧ d1.isDigit ∧ d2.isDigit then
      let y := ((digitVal y1 * 10 + digitVal y2) * 10 + digitVal y3) * 10 + digitVal y4
      let m := digitVal m1 * 10 + digitVal m2
      let d := digitVal d1 * 10 + digitVal d2
      if 1 ≤ m ∧ m ≤ 12 ∧ 1 ≤ d ∧ d ≤ 31 then
        some (y * 10000 + m * 100 + d)
      else none
    else none
  | _ => none

/-- Chronologically monotone key of a well-formed `HH:MM` time string. -/
def parseHM (s : String) : Option Nat :=
  match s.toList with
  | [h1, h2, ':', n1, n2] =>
    if h1.isDigit ∧ h2.isDigit ∧ n1.isDigit ∧ n2.isDigit then
      let h := digitVal h1 * 10 + digitVal h2
      let n := digitVal n1 * 10 + digitVal n2
      if h ≤ 23 ∧ n ≤ 59 then some (h * 60 + n) else none
    else none
  | _ => none

/-- Key of `new Date(date + 'T' + time)` on well-formed components:
monotone in the composite (date, time) chronological order. -/
def parseDT (date time : String) : Option Nat :=
  match parseISODate date, parseHM time with
  | some dv, some tv => some (dv * 10000 + tv)
  | _, _ => none

/-- Sort key of an appointment; a malformed date/time pair (NaN in JS,
implementation-defined order) is mapped to 0, and order claims are stated
for well-formed records only. -/
def keyOf (a : Appointment) : Nat := (parseDT a.date a.time).getD 0

/-- Descending comparator of the sort in `getAppointments`
(`return dateB - dateA`): `a` may precede `b` when `a`'s key is the
larger one. -/
def apptGE (a b : Appointment) : Prop := keyOf b ≤ keyOf a

instance : DecidableRel apptGE := fun a b => by
  unfold apptGE; infer_instance

instance : IsTotal Appointment apptGE :=
  ⟨fun a b => Nat.le_total (keyOf b) (keyOf a)⟩

instance : IsTrans Appointment apptGE :=
  ⟨fun _ _ _ h1 h2 => Nat.le_trans h2 h1⟩

/-- The conjunctive exact-match filter predicate of `getAppointments`:
an absent query parameter matches everything. -/
def matchesFilter (qUserId qStylistId : Option Int) (a : Appointment) : Bool :=
  (match qUserId with
    | some n => a.userId == some n
    | none => true) &&
  (match qStylistId with
    | some n => a.stylistId == n
    | none => true)

/-- Embedding of `getAppointments`: copy, filter by `userId` then by
`stylistId` when supplied, and sort descending by the parsed (date, time)
key. JS `Array.prototype.sort` on a consistent comparator is a stable
sorted permutation, matched here by insertion sort. -/
def getAppointments (qUserId qStylistId : Option Int)
    (appts : List Appointment) : List Appointment :=
  let l := appts
  let l := match qUserId with
    | some n => l.filter (fun a => a.userId == some n)
    | none => l
  let l := match qStylistId with
    | some n => l.filter (fun a => a.stylistId == n)
    | none => l
  List.insertionSort apptGE l

/-- Handler form of `getAppointments`: the stored collection is returned
unchanged alongside the response list (the source sorts a spread copy
`[...appointments]`, never the stored array). -/
def getAppointmentsOp (qUserId qStylistId : Option Int)
    (appts : List Appointment) : List Appointment × List Appointment :=
  (appts, getAppointments qUserId qStylistId appts)

/-- Replace the first element satisfying `p` by its image under `f`:
the functional image of `findIndex` followed by in-place mutation at
that index. -/
def updateFirst (p : Appointment → Bool) (f : Appointment → Appointment) :
    List Appointment → List Appointment
  | [] => []
  | a :: rest => if p a then f a :: rest else a :: updateFirst p f rest

/-- Embedding of `acceptAppointment`: set status to confirmed. -/
def acceptAppointment (id : Int) (appts : List Appointment) (now : String) :
    List Appointment × Except ApiError Appointment :=
  match appts.find? (fun a => a.id == id) with
  | none => (appts, .error .appointmentNotFound)
  | some a =>
    let a' := { a with status := "confirmed", updatedAt := now }
    (updateFirst (fun x => x.id == id) (fun _ => a') appts, .ok a')

/-- Embedding of `rejectAppointment`: set status to cancelled. -/
def rejectAppointment (id : Int) (appts : List Appointment) (now : String) :
    List Appointment × Except ApiError Appointment :=
  match appts.find? (fun a => a.id == id) with
  | none => (appts, .error .appointmentNotFound)
  | some a =>
    let a' := { a with status := "cancelled", updatedAt := now }
    (updateFirst (fun x => x.id == id) (fun _ => a') appts, .ok a')

/-- Embedding of `suggestAppointment`: body validation (JS truthiness of
both suggested fields) comes before the existence lookup, exactly as in
the source. -/
def suggestAppointment (id : Int) (suggestedDate suggestedTime : Option String)
    (appts : List Appointment) (now : String) :
    List Appointment × Except ApiError Appointment :=
  if truthyOptStr suggestedDate = false ∨ truthyOptStr suggestedTime = false then
    (appts, .error .suggestionFieldsRequired)
  else
    match suggestedDate, suggestedTime with
    | some sd, some st =>
      match appts.find? (fun a => a.id == id) with
      | none => (appts, .error .appointmentNotFound)
      | some a =>
        let a' := { a with
          suggestedDate := some (jsTrim sd)
          suggestedTime := some (jsTrim st)
          status := "pending"
          updatedAt := now }
        (updateFirst (fun x => x.id == id) (fun _ => a') appts, .ok a')
    | _, _ => (appts, .error .suggestionFieldsRequired)

/-- Embedding of `acceptSuggestion`: existence lookup, then the JS-truthy
check `!appointment.suggestedDate || !appointment.suggestedTime` (so a
present-but-empty suggestion also fails), then promote the suggestion. -/
def acceptSuggestion (id : Int) (appts : List Appointment) (now : String) :
    List Appointment × Except ApiError Appointment :=
  match appts.find? (fun a => a.id == id) with
  | none => (appts, .error .appointmentNotFound)
  | some a =>
    match a.suggestedDate, a.suggestedTime with
    | some sd, some st =>
      if sd = "" ∨ st = "" then
        (appts, .error .noSuggestionPending)
      else
        let a' := { a with
          date := sd
          time := st
          suggestedDate := none
          suggestedTime := none
          status := "confirmed"
          updatedAt := now }
        (updateFirst (fun x => x.id == id) (fun _ => a') appts, .ok a')
    | _, _ => (appts, .error .noSuggestionPending)

/-- Embedding of `rejectSuggestion`: clear both suggestion fields, keep
the original date and time, force status back to pending. -/
def rejectSuggestion (id : Int) (appts : List Appointment) (now : String) :
    List Appointment × Except ApiError Appointment :=
  match appts.find? (fun a => a.id == id) with
  | none => (appts, .error .appointmentNotFound)
  | some a =>
    let a' := { a with
      suggestedDate := none
      suggestedTime := none
      status := "pending"
      updatedAt := now }
    (updateFirst (fun x => x.id == id) (fun _ => a') appts, .ok a')

/-- User profile record; the login handler consults only `email` (and
returns the record on success). -/
structure UserRec where
  id : Int
  email : String
deriving Repr, DecidableEq

/-- Embedding of `isPasswordHashed` in passwordUtils.js: bcrypt hashes
start with the `$2a$` or `$2b$` marker. -/
def isPasswordHashed (password : String) : Bool :=
  jsStartsWith password "$2a$" || jsStartsWith password "$2b$"

/-- Embedding of `comparePassword` in passwordUtils.js; `bcryptCompare`
stands for the external `bcrypt.compare`. A stored value with the bcrypt
marker is verified through the hash function, any other stored value is a
legacy plaintext compared by exact string equality. -/
def comparePassword (bcryptCompare : String → String → Bool)
    (plainPassword hashedPassword : String) : Bool :=
  if jsStartsWith hashedPassword "$2a$" || jsStartsWith hashedPassword "$2b$" then
    bcryptCompare plainPassword hashedPassword
  else plainPassword == hashedPassword

/-- First value bound to a key in the credential map (`Map.get`). -/
def mapGet (credentials : List (String × String)) (key : String) :
    Option String :=
  (credentials.find? (fun p => p.1 == key)).map (fun p => p.2)

/-- `Map.set`: overwrite the value at an existing key, append otherwise. -/
def mapSet (credentials : List (String × String)) (key value : String) :
    List (String × String) :=
  if (credentials.find? (fun p => p.1 == key)).isSome then
    credentials.map (fun p => if p.1 == key then (key, value) else p)
  else credentials ++ [(key, value)]

/-- Outcome of the login handler, one constructor per response branch. -/
inductive LoginResult where
  | validationFailure
  | invalidCredentials
  | userNotFound
  | success (u : UserRec)
deriving Repr, DecidableEq

/-- Embedding of `loginUser` in userController.js: validate, look the
normalized email up in the credential map (an empty stored value is falsy
and rejected like a missing one), compare via `comparePassword`, lazily
re-hash a legacy plaintext record on a successful match, then resolve the
user profile. `hashPassword` stands for the external bcrypt hashing. -/
def loginUser (bcryptCompare : String → String → Bool)
    (hashPassword : String → String) (email password : Option String)
    (credentials : List (String × String)) (users : List UserRec) :
    List (String × String) × LoginResult :=
  match email, password with
  | some em, some pw =>
    if em = "" ∨ pw = "" then (credentials, .validationFailure)
    else
      let emailLower := jsToLower (jsTrim em)
      match mapGet credentials emailLower with
      | none => (credentials, .invalidCredentials)
      | some stored =>
        if stored = "" then (credentials, .invalidCredentials)
        else if comparePassword bcryptCompare (jsTrim pw) stored = false then
          (credentials, .invalidCredentials)
        else
          let credentials' :=
            if isPasswordHashed stored = false then
              mapSet credentials emailLower (hashPassword (jsTrim pw))
            else credentials
          match users.find? (fun u => jsToLower u.email == emailLower) with
          | none => (credentials', .userNotFound)
          | some u => (credentials', .success u)
  | _, _ => (credentials, .validationFailure)

/-- Example appointment used to instantiate hypothesis-bearing theorems
on concrete inputs. -/
def exAppt : Appointment :=
  { id := 1, stylistId := 1, userId := none, purpose := "Haircut",
    date := "2025-06-01", time := "14:00", customerName := "",
    customerEmail := "", customerPhone := "", services := [],
    status := "pending", suggestedDate := none, suggestedTime := none,
    createdAt := "t0", updatedAt := "t0" }

/-- Example appointment carrying an active counter-offer. -/
def exApptSug : Appointment :=
  { exAppt with
    suggestedDate := some "2025-06-02",
    suggestedTime := some "10:00" }

/-- Image of `exApptSug` under a successful AcceptSuggestion at `"t1"`. -/
def exApptAcc : Appointment :=
  { exApptSug with
    date := "2025-06-02", time := "10:00",
    suggestedDate := none, suggestedTime := none, status := "confirmed",
    updatedAt := "t1" }

/-- Example well-formed creation request (guest booking, `userId` 0). -/
def exReq : CreateRequest :=
  { stylistId := some 1, userId := some 0, purpose := some "Haircut",
    date := some "2025-06-01", time := some "14:00", customerName := none,
    customerEmail := none, customerPhone := none, services := none }

/-- Example stylist referenced by `exReq`. -/
def exStylist : Stylist := { id := 1 }

/-- Appointment state reached from `exAppt` by `Suggest` with the truthy
body `suggestedDate = " "`, `suggestedTime = "10:00"`: after trimming,
`suggestedDate` is the non-null empty string. -/
def exApptEmptySug : Appointment :=
  { exAppt with
    suggestedDate := some "", suggestedTime := some "10:00",
    status := "pending", updatedAt := "t1" }

/-- Toy stand-in for `bcrypt.compare`, used only to instantiate
hypothesis-bearing theorems: a hash matches the password it embeds. -/
def exBcryptCompare (plain stored : String) : Bool :=
  stored == "$2b$" ++ plain

/-- Toy stand-in for bcrypt hashing, matching `exBcryptCompare`. -/
def exHashPassword (plain : String) : String := "$2b$" ++ plain

/-- Example user profile for login witnesses. -/
def exUser : UserRec := { id := 1, email := "a@x.com" }

/-- The spec's suggestion invariant: in every stored record the two
suggestion fields are both null or both non-null. -/
def SuggestionInv (l : List Appointment) : Prop :=
  ∀ a ∈ l, a.suggestedDate.isSome = a.suggestedTime.isSome

/-- Finding after replacing the first match: when the replacement still
satisfies the predicate, the replaced element is what a later lookup
returns. -/
theorem find?_updateFirst (p : Appointment → Bool) (f : Appointment → Appointment)
    (l : List Appointment) (a : Appointment)
    (hfind : l.find? p = some a) (hf : p (f a) = true) :
    (updateFirst p f l).find? p = some (f a) := by
  induction l with
  | nil => simp at hfind
  | cons b rest ih =>
    by_cases hb : p b
    · have hba : b = a := by
        rw [List.find?_cons_of_pos _ hb] at hfind
        exact Option.some.inj hfind
      subst hba
      simp [updateFirst, hb, List.find?_cons_of_pos _ hf]
    · rw [List.find?_cons_of_neg _ (by simpa using hb)] at hfind
      simp only [updateFirst, if_neg hb]
      rw [List.find?_cons_of_neg _ (by simpa using hb)]
      exact ih hfind

/-- Membership after replacing the first match: an element of the result
is an old element or the image of an old element. -/
theorem mem_updateFirst (p : Appointment → Bool) (f : Appointment → Appointment)
    (l : List Appointment) (x : Appointment) (hx : x ∈ updateFirst p f l) :
    x ∈ l ∨ ∃ y, y ∈ l ∧ x = f y := by
  induction l with
  | nil => simp [updateFirst] at hx
  | cons b rest ih =>
    by_cases hb : p b
    · simp only [updateFirst, if_pos hb] at hx
      rcases List.mem_cons.mp hx with h | h
      · exact Or.inr ⟨b, List.mem_cons_self b rest, h⟩
      · exact Or.inl (List.mem_cons_of_mem b h)
    · simp only [updateFirst, if_neg hb] at hx
      rcases List.mem_cons.mp hx with h | h
      · exact Or.inl (h ▸ List.mem_cons_self b rest)
      · rcases ih h with h' | ⟨y, hy, hxy⟩
        · exact Or.inl (List.mem_cons_of_mem b h')
        · exact Or.inr ⟨y, List.mem_cons_of_mem b hy, hxy⟩

/-- Folding `max` over ids never drops below the seed. -/
theorem foldl_max_id_ge_init (l : List Appointment) (init : Int) :
    init ≤ l.foldl (fun m b => max m b.id) init := by
  induction l generalizing init with
  | nil => exact le_refl _
  | cons b rest ih =>
    exact le_trans (le_max_left init b.id) (ih (max init b.id))

/-- Folding `max` over ids bounds every listed id. -/
theorem foldl_max_id_bound (l : List Appointment) (init : Int) (b : Appointment)
    (hb : b ∈ l) : b.id ≤ l.foldl (fun m b => max m b.id) init := by
  induction l generalizing init with
  | nil => simp at hb
  | cons c rest ih =>
    rcases List.mem_cons.mp hb with h | h
    · subst h
      exact le_trans (le_max_right init b.id) (foldl_max_id_ge_init rest _)
    · exact ih _ h

/-- The source's `maxId` bounds every id already in the collection. -/
theorem maxApptId_bound (l : List Appointment) (b : Appointment) (hb : b ∈ l) :
    b.id ≤ maxApptId l := by
  cases l with
  | nil => simp at hb
  | cons a rest =>
    rcases List.mem_cons.mp hb with h | h
    · subst h
      exact foldl_max_id_ge_init rest _
    · exact foldl_max_id_bound rest _ _ h

/-- C1: for every appointment whose suggestedDate and suggestedTime are
both non-null, a successful AcceptSuggestion call sets date to the old
suggestedDate, time to the old suggestedTime, nulls both suggestion
fields, sets status to confirmed, and stores the updated record. -/
theorem acceptSuggestion_success_promotes (appts : List Appointment)
    (id : Int) (now : String) (a a' : Appointment) (s' : List Appointment)
    (hfind : appts.find? (fun x => x.id == id) = some a)
    (hsd : a.suggestedDate.isSome = true) (hst : a.suggestedTime.isSome = true)
    (hrun : acceptSuggestion id appts now = (s', Except.ok a')) :
    a.suggestedDate = some a'.date ∧ a.suggestedTime = some a'.time ∧
    a'.suggestedDate = none ∧ a'.suggestedTime = none ∧
    a'.status = "confirmed" ∧ s'.find? (fun x => x.id == id) = some a' := by
  rcases h1 : a.suggestedDate with _ | sd
  · rw [h1] at hsd; simp at hsd
  rcases h2 : a.suggestedTime with _ | st
  · rw [h2] at hst; simp at hst
  by_cases hempty : sd = "" ∨ st = ""
  · simp [acceptSuggestion, hfind, h1, h2, hempty] at hrun
  · simp only [acceptSuggestion, hfind, h1, h2, if_neg hempty] at hrun
    have hpa := List.find?_some hfind
    obtain ⟨hs', ha'⟩ := Prod.mk.injEq .. ▸ hrun
    have ha'' := Except.ok.inj ha'
    subst hs'
    refine ⟨?_, ?_, ?_, ?_, ?_, ?_⟩
    · rw [← ha'']
    · rw [← ha'']
    · rw [← ha'']
    · rw [← ha'']
    · rw [← ha'']
    · rw [← ha'']
      exact find?_updateFirst _ _ _ _ hfind (by simpa using hpa)

/-- Witness for C1 at a concrete appointment with a pending suggestion. -/
theorem acceptSuggestion_success_promotes_witness :
    List.find? (fun x => x.id == 1) [exApptSug] = some exApptSug ∧
    exApptSug.suggestedDate.isSome = true ∧
    exApptSug.suggestedTime.isSome = true ∧
    acceptSuggestion 1 [exApptSug] "t1" = ([exApptAcc], Except.ok exApptAcc) ∧
    (exApptSug.suggestedDate = some exApptAcc.date ∧
      exApptSug.suggestedTime = some exApptAcc.time ∧
      exApptAcc.suggestedDate = none ∧ exApptAcc.suggestedTime = none ∧
      exApptAcc.status = "confirmed" ∧
      List.find? (fun x => x.id == 1) [exApptAcc] = some exApptAcc) :=
  ⟨rfl, rfl, rfl, rfl,
    acceptSuggestion_success_promotes [exApptSug] 1 "t1" exApptSug exApptAcc
      [exApptAcc] rfl rfl rfl rfl⟩

/-- Counterexample to C3: the state `exApptEmptySug` is reachable from
`exAppt` by a Suggest call whose truthy body trims to an empty string;
there both suggestion fields are non-null, yet AcceptSuggestion fails
with NoSuggestionPending because the source tests JS truthiness, not
nullness. -/
theorem acceptSuggestion_nonnull_not_sufficient_cex :
    suggestAppointment 1 (some " ") (some "10:00") [exAppt] "t1" =
      ([exApptEmptySug], Except.ok exApptEmptySug) ∧
    exApptEmptySug.suggestedDate.isSome = true ∧
    exApptEmptySug.suggestedTime.isSome = true ∧
    List.find? (fun x => x.id == 1) [exApptEmptySug] = some exApptEmptySug ∧
    acceptSuggestion 1 [exApptEmptySug] "t2" =
      ([exApptEmptySug], Except.error ApiError.noSuggestionPending) :=
  ⟨rfl, rfl, rfl, rfl, rfl⟩

/-- C3 (amended): for every existing appointment, AcceptSuggestion
succeeds if and only if both suggestion fields are truthy (non-null and
non-empty); when either is falsy it fails with NoSuggestionPending
(HTTP 400) and leaves the collection unchanged. -/
theorem acceptSuggestion_truthy_iff (appts : List Appointment) (id : Int)
    (now : String) (a : Appointment)
    (hfind : appts.find? (fun x => x.id == id) = some a) :
    ((truthyOptStr a.suggestedDate = true ∧ truthyOptStr a.suggestedTime = true) ↔
      ∃ a', (acceptSuggestion id appts now).2 = Except.ok a') ∧
    ((truthyOptStr a.suggestedDate = false ∨ truthyOptStr a.suggestedTime = false) →
      acceptSuggestion id appts now = (appts, Except.error ApiError.noSuggestionPending)) ∧
    ApiError.noSuggestionPending.httpStatus = 400 := by
  rcases h1 : a.suggestedDate with _ | sd <;> rcases h2 : a.suggestedTime with _ | st
  · have hred : acceptSuggestion id appts now =
        (appts, Except.error ApiError.noSuggestionPending) := by
      simp [acceptSuggestion, hfind, h1, h2]
    refine ⟨⟨fun h => absurd h.1 (by simp [truthyOptStr]), ?_⟩, fun _ => hred, rfl⟩
    rintro ⟨a', ha'⟩
    rw [hred] at ha'
    simp at ha'
  · have hred : acceptSuggestion id appts now =
        (appts, Except.error ApiError.noSuggestionPending) := by
      simp [acceptSuggestion, hfind, h1, h2]
    refine ⟨⟨fun h => absurd h.1 (by simp [truthyOptStr]), ?_⟩, fun _ => hred, rfl⟩
    rintro ⟨a', ha'⟩
    rw [hred] at ha'
    simp at ha'
  · have hred : acceptSuggestion id appts now =
        (appts, Except.error ApiError.noSuggestionPending) := by
      simp [acceptSuggestion, hfind, h1, h2]
    refine ⟨⟨fun h => absurd h.2 (by simp [truthyOptStr]), ?_⟩, fun _ => hred, rfl⟩
    rintro ⟨a', ha'⟩
    rw [hred] at ha'
    simp at ha'
  · by_cases he : sd = "" ∨ st = ""
    · have hred : acceptSuggestion id appts now =
          (appts, Except.error ApiError.noSuggestionPending) := by
        simp only [acceptSuggestion, hfind, h1, h2, if_pos he]
      refine ⟨⟨fun h => ?_, ?_⟩, fun _ => hred, rfl⟩
      · rcases he with he | he
        · rw [he] at h
          simp [truthyOptStr] at h
        · rw [he] at h
          simp [truthyOptStr] at h
      · rintro ⟨a', ha'⟩
        rw [hred] at ha'
        simp at ha'
    · push_neg at he
      have hred := he
      refine ⟨⟨fun _ => ?_, fun _ => by simp [truthyOptStr, he.1, he.2]⟩, ?_, rfl⟩
      · have hstep : acceptSuggestion id appts now =
            (updateFirst (fun x => x.id == id)
              (fun _ => { a with
                date := sd, time := st, suggestedDate := none,
                suggestedTime := none, status := "confirmed",
                updatedAt := now }) appts,
              Except.ok { a with
                date := sd, time := st, suggestedDate := none,
                suggestedTime := none, status := "confirmed",
                updatedAt := now }) := by
          simp only [acceptSuggestion, hfind, h1, h2,
            if_neg (not_or.mpr ⟨he.1, he.2⟩)]
        exact ⟨_, by rw [hstep]⟩
      · intro hcon
        rcases hcon with hcon | hcon <;> simp [truthyOptStr, he.1, he.2] at hcon

/-- Witness for the amended C3 at a concrete appointment with a pending
suggestion. -/
theorem acceptSuggestion_truthy_iff_witness :
    List.find? (fun x => x.id == 1) [exApptSug] = some exApptSug ∧
    (((truthyOptStr exApptSug.suggestedDate = true ∧
        truthyOptStr exApptSug.suggestedTime = true) ↔
      ∃ a', (acceptSuggestion 1 [exApptSug] "t1").2 = Except.ok a') ∧
    ((truthyOptStr exApptSug.suggestedDate = false ∨
        truthyOptStr exApptSug.suggestedTime = false) →
      acceptSuggestion 1 [exApptSug] "t1" =
        ([exApptSug], Except.error ApiError.noSuggestionPending)) ∧
    ApiError.noSuggestionPending.httpStatus = 400) :=
  ⟨rfl, acceptSuggestion_truthy_iff [exApptSug] 1 "t1" exApptSug rfl⟩

/-- C9: a Suggest request missing either suggested field fails with the
400 validation error before any existence lookup, for every id and every
collection, so an unknown id with a missing field yields 400, not 404. -/
theorem suggestAppointment_validates_body_first (id : Int)
    (sd st : Option String) (appts : List Appointment) (now : String)
    (h : truthyOptStr sd = false ∨ truthyOptStr st = false) :
    suggestAppointment id sd st appts now =
      (appts, Except.error ApiError.suggestionFieldsRequired) ∧
    ApiError.suggestionFieldsRequired.httpStatus = 400 ∧
    ApiError.suggestionFieldsRequired ≠ ApiError.appointmentNotFound := by
  refine ⟨?_, rfl, by decide⟩
  simp only [suggestAppointment, if_pos h]

/-- Witness for C9: an id absent from the collection still draws the 400
validation response when the body lacks a suggested date. -/
theorem suggestAppointment_validates_body_first_witness :
    (truthyOptStr none = false ∨ truthyOptStr (some "10:00") = false) ∧
    (suggestAppointment 999 none (some "10:00") [exAppt] "t1" =
        ([exAppt], Except.error ApiError.suggestionFieldsRequired) ∧
      ApiError.suggestionFieldsRequired.httpStatus = 400 ∧
      ApiError.suggestionFieldsRequired ≠ ApiError.appointmentNotFound) :=
  ⟨Or.inl rfl,
    suggestAppointment_validates_body_first 999 none (some "10:00") [exAppt]
      "t1" (Or.inl rfl)⟩

/-- C10: whenever the supplied userId is falsy (absent, null or 0), a
successful creation stores `userId = null`, so an explicit userId of 0 is
indistinguishable from a guest booking. -/
theorem createAppointment_falsy_userId (req : CreateRequest)
    (stylists : List Stylist) (appts : List Appointment) (now : String)
    (s' : List Appointment) (a : Appointment)
    (h : truthyOptInt req.userId = false)
    (hrun : createAppointment req stylists appts now = (s', Except.ok a)) :
    a.userId = none := by
  rcases q1 : req.stylistId with _ | sid
  · simp [createAppointment, q1] at hrun
  rcases q2 : req.purpose with _ | pur
  · simp [createAppointment, q1, q2] at hrun
  rcases q3 : req.date with _ | dt
  · simp [createAppointment, q1, q2, q3] at hrun
  rcases q4 : req.time with _ | tm
  · simp [createAppointment, q1, q2, q3, q4] at hrun
  by_cases hc : sid = 0 ∨ pur = "" ∨ dt = "" ∨ tm = ""
  · simp [createAppointment, q1, q2, q3, q4, hc] at hrun
  rcases q5 : stylists.find? (fun s => s.id == sid) with _ | sty
  · simp [createAppointment, q1, q2, q3, q4, hc, q5] at hrun
  · simp only [createAppointment, q1, q2, q3, q4, if_neg hc, q5] at hrun
    obtain ⟨hs', ha⟩ := Prod.mk.injEq .. ▸ hrun
    have ha' := Except.ok.inj ha
    rw [← ha']
    rcases q6 : req.userId with _ | u
    · simp [q6]
    · rw [q6] at h
      simp [truthyOptInt] at h
      simp [q6, h]

/-- Witness for C10: creating with an explicit `userId = 0` stores null. -/
theorem createAppointment_falsy_userId_witness :
    truthyOptInt exReq.userId = false ∧
    createAppointment exReq [exStylist] [] "t0" = ([exAppt], Except.ok exAppt) ∧
    exAppt.userId = none :=
  ⟨rfl, rfl,
    createAppointment_falsy_userId exReq [exStylist] [] "t0" [exAppt] exAppt
      rfl rfl⟩

/-- C4: a creation whose stylistId is truthy and resolves to an existing
stylist and whose purpose, date and time are present (truthy) appends one
record with status pending, null suggestion fields, and id
`maxApptId + 1`, strictly greater than every stored id. -/
theorem createAppointment_valid_spec (req : CreateRequest)
    (stylists : List Stylist) (appts : List Appointment) (now : String)
    (sid : Int) (sty : Stylist)
    (hsid : req.stylistId = some sid) (hsid0 : sid ≠ 0)
    (hsty : stylists.find? (fun s => s.id == sid) = some sty)
    (hp : truthyOptStr req.purpose = true)
    (hd : truthyOptStr req.date = true)
    (ht : truthyOptStr req.time = true) :
    ∃ a, createAppointment req stylists appts now = (appts ++ [a], Except.ok a) ∧
      a.status = "pending" ∧ a.suggestedDate = none ∧ a.suggestedTime = none ∧
      a.id = maxApptId appts + 1 ∧ ∀ b ∈ appts, b.id < a.id := by
  rcases q2 : req.purpose with _ | pur
  · rw [q2] at hp
    simp [truthyOptStr] at hp
  rcases q3 : req.date with _ | dt
  · rw [q3] at hd
    simp [truthyOptStr] at hd
  rcases q4 : req.time with _ | tm
  · rw [q4] at ht
    simp [truthyOptStr] at ht
  rw [q2] at hp
  rw [q3] at hd
  rw [q4] at ht
  simp only [truthyOptStr, ne_eq, decide_eq_true_eq] at hp hd ht
  have hc : ¬(sid = 0 ∨ pur = "" ∨ dt = "" ∨ tm = "") := by
    push_neg
    exact ⟨hsid0, hp, hd, ht⟩
  have hstep : createAppointment req stylists appts now =
      (appts ++
          [({ id := maxApptId appts + 1, stylistId := sid,
              userId := (match req.userId with
                | some u => if u = 0 then none else some u
                | none => none),
              purpose := jsTrim pur, date := jsTrim dt, time := jsTrim tm,
              customerName := jsOptTrim req.customerName,
              customerEmail := jsOptTrimLower req.customerEmail,
              customerPhone := jsOptTrim req.customerPhone,
              services := req.services.getD [], status := "pending",
              suggestedDate := none, suggestedTime := none,
              createdAt := now, updatedAt := now } : Appointment)],
        Except.ok
          ({ id := maxApptId appts + 1, stylistId := sid,
              userId := (match req.userId with
                | some u => if u = 0 then none else some u
                | none => none),
              purpose := jsTrim pur, date := jsTrim dt, time := jsTrim tm,
              customerName := jsOptTrim req.customerName,
              customerEmail := jsOptTrimLower req.customerEmail,
              customerPhone := jsOptTrim req.customerPhone,
              services := req.services.getD [], status := "pending",
              suggestedDate := none, suggestedTime := none,
              createdAt := now, updatedAt := now } : Appointment)) := by
    simp only [createAppointment, hsid, q2, q3, q4, if_neg hc, hsty]
  refine ⟨_, hstep, rfl, rfl, rfl, rfl, ?_⟩
  intro b hb
  have hble := maxApptId_bound appts b hb
  show b.id < maxApptId appts + 1
  omega

/-- Witness for C4 on a one-stylist, one-appointment store. -/
theorem createAppointment_valid_spec_witness :
    (exReq.stylistId = some 1 ∧ (1 : Int) ≠ 0 ∧
      List.find? (fun s => s.id == 1) [exStylist] = some exStylist ∧
      truthyOptStr exReq.purpose = true ∧ truthyOptStr exReq.date = true ∧
      truthyOptStr exReq.time = true) ∧
    (∃ a, createAppointment exReq [exStylist] [exAppt] "t3" =
        ([exAppt] ++ [a], Except.ok a) ∧
      a.status = "pending" ∧ a.suggestedDate = none ∧ a.suggestedTime = none ∧
      a.id = maxApptId [exAppt] + 1 ∧ ∀ b ∈ [exAppt], b.id < a.id) :=
  ⟨⟨rfl, by decide, rfl, rfl, rfl, rfl⟩,
    createAppointment_valid_spec exReq [exStylist] [exAppt] "t3" 1 exStylist
      rfl (by decide) rfl rfl rfl rfl⟩

/-- Counterexample to C5: a creation request whose stylistId (99) matches
no stylist but whose purpose is missing fails with the 400 validation
error, not 404 NotFound, because required-field validation runs first. -/
theorem createAppointment_notfound_cex :
    (∀ s ∈ [exStylist], (99 : Int) ≠ s.id) ∧
    createAppointment
      { stylistId := some 99, userId := none, purpose := none,
        date := some "2025-06-01", time := some "14:00",
        customerName := none, customerEmail := none, customerPhone := none,
        services := none } [exStylist] [exAppt] "t0" =
      ([exAppt], Except.error ApiError.missingFields) ∧
    ApiError.missingFields ≠ ApiError.stylistNotFound ∧
    ApiError.missingFields.httpStatus = 400 :=
  ⟨by decide, rfl, by decide, rfl⟩

/-- C5 (amended): when all required fields are present (truthy) and the
stylistId matches no existing stylist, Create fails with NotFound
(HTTP 404) and the collection is unchanged. -/
theorem createAppointment_unknown_stylist (req : CreateRequest)
    (stylists : List Stylist) (appts : List Appointment) (now : String)
    (sid : Int)
    (hsid : req.stylistId = some sid) (hsid0 : sid ≠ 0)
    (hp : truthyOptStr req.purpose = true)
    (hd : truthyOptStr req.date = true)
    (ht : truthyOptStr req.time = true)
    (hnone : stylists.find? (fun s => s.id == sid) = none) :
    createAppointment req stylists appts now =
      (appts, Except.error ApiError.stylistNotFound) ∧
    ApiError.stylistNotFound.httpStatus = 404 := by
  rcases q2 : req.purpose with _ | pur
  · rw [q2] at hp
    simp [truthyOptStr] at hp
  rcases q3 : req.date with _ | dt
  · rw [q3] at hd
    simp [truthyOptStr] at hd
  rcases q4 : req.time with _ | tm
  · rw [q4] at ht
    simp [truthyOptStr] at ht
  rw [q2] at hp
  rw [q3] at hd
  rw [q4] at ht
  simp only [truthyOptStr, ne_eq, decide_eq_true_eq] at hp hd ht
  have hc : ¬(sid = 0 ∨ pur = "" ∨ dt = "" ∨ tm = "") := by
    push_neg
    exact ⟨hsid0, hp, hd, ht⟩
  refine ⟨?_, rfl⟩
  simp only [createAppointment, hsid, q2, q3, q4, if_neg hc, hnone]

/-- Witness for the amended C5: stylist 99 is unknown, the request is
otherwise well-formed, and the store is untouched. -/
theorem createAppointment_unknown_stylist_witness :
    (({ exReq with stylistId := some 99 } : CreateRequest).stylistId = some 99 ∧
      (99 : Int) ≠ 0 ∧
      truthyOptStr ({ exReq with stylistId := some 99 } : CreateRequest).purpose = true ∧
      List.find? (fun s => s.id == 99) [exStylist] = none) ∧
    (createAppointment { exReq with stylistId := some 99 } [exStylist]
        [exAppt] "t0" = ([exAppt], Except.error ApiError.stylistNotFound) ∧
      ApiError.stylistNotFound.httpStatus = 404) :=
  ⟨⟨rfl, by decide, rfl, rfl⟩,
    createAppointment_unknown_stylist { exReq with stylistId := some 99 }
      [exStylist] [exAppt] "t0" 99 rfl (by decide) rfl rfl rfl rfl⟩

/-- C6: Suggest followed immediately by RejectSuggestion restores the
original date and time of the targeted appointment (round-trip law). -/
theorem suggest_then_reject_roundtrip (appts : List Appointment) (id : Int)
    (now1 now2 : String) (a : Appointment) (sd st : String)
    (hfind : appts.find? (fun x => x.id == id) = some a)
    (hsd : sd ≠ "") (hst : st ≠ "") :
    ∃ s1 a1 s2 a2,
      suggestAppointment id (some sd) (some st) appts now1 =
        (s1, Except.ok a1) ∧
      rejectSuggestion id s1 now2 = (s2, Except.ok a2) ∧
      a2.date = a.date ∧ a2.time = a.time ∧
      s2.find? (fun x => x.id == id) = some a2 := by
  have hpa := List.find?_some hfind
  have hv : ¬(truthyOptStr (some sd) = false ∨ truthyOptStr (some st) = false) := by
    simp [truthyOptStr, hsd, hst]
  have h1 : suggestAppointment id (some sd) (some st) appts now1 =
      (updateFirst (fun x => x.id == id)
        (fun _ =>
          { a with
            suggestedDate := some (jsTrim sd),
            suggestedTime := some (jsTrim st),
            status := "pending", updatedAt := now1 }) appts,
      Except.ok
        { a with
          suggestedDate := some (jsTrim sd),
          suggestedTime := some (jsTrim st),
          status := "pending", updatedAt := now1 }) := by
    simp only [suggestAppointment, if_neg hv, hfind]
  have hfind1 := find?_updateFirst (fun x => x.id == id)
    (fun _ =>
      { a with
        suggestedDate := some (jsTrim sd),
        suggestedTime := some (jsTrim st),
        status := "pending", updatedAt := now1 }) appts a hfind
    (by simpa using hpa)
  have hfind2 := find?_updateFirst (fun x => x.id == id)
    (fun _ =>
      { a with
        suggestedDate := none, suggestedTime := none,
        status := "pending", updatedAt := now2 })
    (updateFirst (fun x => x.id == id)
      (fun _ =>
        { a with
          suggestedDate := some (jsTrim sd),
          suggestedTime := some (jsTrim st),
          status := "pending", updatedAt := now1 }) appts)
    _ hfind1 (by simpa using hpa)
  have h2 : rejectSuggestion id
      (updateFirst (fun x => x.id == id)
        (fun _ =>
          { a with
            suggestedDate := some (jsTrim sd),
            suggestedTime := some (jsTrim st),
            status := "pending", updatedAt := now1 }) appts) now2 =
      (updateFirst (fun x => x.id == id)
        (fun _ =>
          { a with
            suggestedDate := none, suggestedTime := none,
            status := "pending", updatedAt := now2 })
        (updateFirst (fun x => x.id == id)
          (fun _ =>
            { a with
              suggestedDate := some (jsTrim sd),
              suggestedTime := some (jsTrim st),
              status := "pending", updatedAt := now1 }) appts),
      Except.ok
        { a with
          suggestedDate := none, suggestedTime := none,
          status := "pending", updatedAt := now2 }) := by
    simp only [rejectSuggestion, hfind1]
  exact ⟨_, _, _, _, h1, h2, rfl, rfl, hfind2⟩

/-- Witness for C6 on the singleton store holding `exAppt`. -/
theorem suggest_then_reject_roundtrip_witness :
    (List.find? (fun x => x.id == 1) [exAppt] = some exAppt ∧
      ("2025-06-02" : String) ≠ "" ∧ ("10:00" : String) ≠ "") ∧
    (∃ s1 a1 s2 a2,
      suggestAppointment 1 (some "2025-06-02") (some "10:00") [exAppt] "t1" =
        (s1, Except.ok a1) ∧
      rejectSuggestion 1 s1 "t2" = (s2, Except.ok a2) ∧
      a2.date = exAppt.date ∧ a2.time = exAppt.time ∧
      s2.find? (fun x => x.id == 1) = some a2) :=
  ⟨⟨rfl, by decide, by decide⟩,
    suggest_then_reject_roundtrip [exAppt] 1 "t1" "t2" exAppt "2025-06-02"
      "10:00" rfl (by decide) (by decide)⟩

/-- Replacing the first match by a record that itself satisfies the
suggestion invariant preserves the invariant of the collection. -/
theorem suggestionInv_updateFirst (p : Appointment → Bool)
    (a' : Appointment) (l : List Appointment)
    (hInv : SuggestionInv l)
    (ha' : a'.suggestedDate.isSome = a'.suggestedTime.isSome) :
    SuggestionInv (updateFirst p (fun _ => a') l) := by
  intro x hx
  rcases mem_updateFirst p (fun _ => a') l x hx with h | ⟨y, hy, hxy⟩
  · exact hInv x h
  · rw [hxy]
    exact ha'

/-- Appending a record that satisfies the suggestion invariant preserves
the invariant of the collection. -/
theorem suggestionInv_append (a' : Appointment) (l : List Appointment)
    (hInv : SuggestionInv l)
    (ha' : a'.suggestedDate.isSome = a'.suggestedTime.isSome) :
    SuggestionInv (l ++ [a']) := by
  intro x hx
  rcases List.mem_append.mp hx with h | h
  · exact hInv x h
  · rw [List.mem_singleton.mp h]
    exact ha'

/-- C2: every operation of the negotiation engine (Create, Accept,
Reject, Suggest, AcceptSuggestion, RejectSuggestion) preserves the
invariant that suggestedDate and suggestedTime are both null or both
non-null in every stored record. -/
theorem ops_preserve_suggestion_invariant :
    (∀ req stylists appts now, SuggestionInv appts →
      SuggestionInv (createAppointment req stylists appts now).1) ∧
    (∀ id appts now, SuggestionInv appts →
      SuggestionInv (acceptAppointment id appts now).1) ∧
    (∀ id appts now, SuggestionInv appts →
      SuggestionInv (rejectAppointment id appts now).1) ∧
    (∀ id sd st appts now, SuggestionInv appts →
      SuggestionInv (suggestAppointment id sd st appts now).1) ∧
    (∀ id appts now, SuggestionInv appts →
      SuggestionInv (acceptSuggestion id appts now).1) ∧
    (∀ id appts now, SuggestionInv appts →
      SuggestionInv (rejectSuggestion id appts now).1) := by
  refine ⟨?_, ?_, ?_, ?_, ?_, ?_⟩
  · intro req stylists appts now hInv
    rcases q1 : req.stylistId with _ | sid
    · simpa [createAppointment, q1] using hInv
    rcases q2 : req.purpose with _ | pur
    · simpa [createAppointment, q1, q2] using hInv
    rcases q3 : req.date with _ | dt
    · simpa [createAppointment, q1, q2, q3] using hInv
    rcases q4 : req.time with _ | tm
    · simpa [createAppointment, q1, q2, q3, q4] using hInv
    by_cases hc : sid = 0 ∨ pur = "" ∨ dt = "" ∨ tm = ""
    · simpa [createAppointment, q1, q2, q3, q4, hc] using hInv
    rcases q5 : stylists.find? (fun s => s.id == sid) with _ | sty
    · simpa [createAppointment, q1, q2, q3, q4, hc, q5] using hInv
    · have hres := suggestionInv_append
        ({ id := maxApptId appts + 1, stylistId := sid,
            userId := (match req.userId with
              | some u => if u = 0 then none else some u
              | none => none),
            purpose := jsTrim pur, date := jsTrim dt, time := jsTrim tm,
            customerName := jsOptTrim req.customerName,
            customerEmail := jsOptTrimLower req.customerEmail,
            customerPhone := jsOptTrim req.customerPhone,
            services := req.services.getD [], status := "pending",
            suggestedDate := none, suggestedTime := none,
            createdAt := now, updatedAt := now } : Appointment) appts hInv rfl
      simpa [createAppointment, q1, q2, q3, q4, hc, q5] using hres
  · intro id appts now hInv
    rcases q : appts.find? (fun x => x.id == id) with _ | a
    · simpa [acceptAppointment, q] using hInv
    · have ha := hInv a (List.mem_of_find?_eq_some q)
      have hres := suggestionInv_updateFirst (fun x => x.id == id)
        { a with status := "confirmed", updatedAt := now } appts hInv ha
      simpa [acceptAppointment, q] using hres
  · intro id appts now hInv
    rcases q : appts.find? (fun x => x.id == id) with _ | a
    · simpa [rejectAppointment, q] using hInv
    · have ha := hInv a (List.mem_of_find?_eq_some q)
      have hres := suggestionInv_updateFirst (fun x => x.id == id)
        { a with status := "cancelled", updatedAt := now } appts hInv ha
      simpa [rejectAppointment, q] using hres
  · intro id sd st appts now hInv
    by_cases hv : truthyOptStr sd = false ∨ truthyOptStr st = false
    · simpa [suggestAppointment, hv] using hInv
    rcases sd with _ | sd'
    · exact absurd (Or.inl rfl) hv
    rcases st with _ | st'
    · exact absurd (Or.inr rfl) hv
    rcases q : appts.find? (fun x => x.id == id) with _ | a
    · simpa [suggestAppointment, hv, q] using hInv
    · have hres := suggestionInv_updateFirst (fun x => x.id == id)
        { a with
          suggestedDate := some (jsTrim sd'),
          suggestedTime := some (jsTrim st'),
          status := "pending", updatedAt := now } appts hInv rfl
      simpa [suggestAppointment, hv, q] using hres
  · intro id appts now hInv
    rcases q : appts.find? (fun x => x.id == id) with _ | a
    · simpa [acceptSuggestion, q] using hInv
    rcases h1 : a.suggestedDate with _ | sd
    · simpa [acceptSuggestion, q, h1] using hInv
    rcases h2 : a.suggestedTime with _ | st
    · simpa [acceptSuggestion, q, h1, h2] using hInv
    by_cases he : sd = "" ∨ st = ""
    · simpa [acceptSuggestion, q, h1, h2, he] using hInv
    · have hres := suggestionInv_updateFirst (fun x => x.id == id)
        { a with
          date := sd, time := st, suggestedDate := none,
          suggestedTime := none, status := "confirmed",
          updatedAt := now } appts hInv rfl
      simpa [acceptSuggestion, q, h1, h2, he] using hres
  · intro id appts now hInv
    rcases q : appts.find? (fun x => x.id == id) with _ | a
    · simpa [rejectSuggestion, q] using hInv
    · have hres := suggestionInv_updateFirst (fun x => x.id == id)
        { a with
          suggestedDate := none, suggestedTime := none,
          status := "pending", updatedAt := now } appts hInv rfl
      simpa [rejectSuggestion, q] using hres

/-- Witness for C2: the AcceptSuggestion conjunct applied to a concrete
store satisfying the invariant. -/
theorem ops_preserve_suggestion_invariant_witness :
    SuggestionInv [exApptSug] ∧
    SuggestionInv (acceptSuggestion 1 [exApptSug] "t1").1 :=
  ⟨by
    intro a ha
    rw [List.mem_singleton.mp ha]
    rfl,
    ops_preserve_suggestion_invariant.2.2.2.2.1 1 [exApptSug] "t1"
      (by
        intro a ha
        rw [List.mem_singleton.mp ha]
        rfl)⟩

/-- C7: `getAppointments` returns exactly the records matching the
supplied filters (conjunctively, by exact equality), sorted descending by
the parsed composite (date, time) key, and the stored collection is
returned unchanged. -/
theorem getAppointments_filters_and_sorts (qU qS : Option Int)
    (appts : List Appointment) :
    (getAppointments qU qS appts).Perm
      (appts.filter (matchesFilter qU qS)) ∧
    List.Sorted apptGE (getAppointments qU qS appts) ∧
    List.Pairwise (fun a b => ∀ x y, parseDT a.date a.time = some x →
      parseDT b.date b.time = some y → y ≤ x)
      (getAppointments qU qS appts) ∧
    (getAppointmentsOp qU qS appts).1 = appts := by
  have hsorted : List.Sorted apptGE (getAppointments qU qS appts) := by
    rcases qU with _ | u <;> rcases qS with _ | v <;>
      exact List.sorted_insertionSort apptGE _
  have himp : ∀ {a b : Appointment}, apptGE a b → ∀ x y,
      parseDT a.date a.time = some x → parseDT b.date b.time = some y →
      y ≤ x := by
    intro a b h x y hx hy
    unfold apptGE keyOf at h
    rw [hx, hy] at h
    simpa using h
  refine ⟨?_, hsorted, List.Pairwise.imp himp hsorted, rfl⟩
  rcases qU with _ | u <;> rcases qS with _ | v
  · have he : List.filter (matchesFilter none none) appts = appts := by
      rw [show matchesFilter none none = (fun _ : Appointment => true && true)
        from funext fun _ => rfl]
      simp
    rw [he]
    exact List.perm_insertionSort apptGE appts
  · have he : List.filter (matchesFilter none (some v)) appts =
        appts.filter (fun a => a.stylistId == v) := by
      rw [show matchesFilter none (some v) =
        (fun a : Appointment => true && (a.stylistId == v))
        from funext fun _ => rfl]
      simp
    rw [he]
    exact List.perm_insertionSort apptGE _
  · have he : List.filter (matchesFilter (some u) none) appts =
        appts.filter (fun a => a.userId == some u) := by
      rw [show matchesFilter (some u) none =
        (fun a : Appointment => (a.userId == some u) && true)
        from funext fun _ => rfl]
      simp
    rw [he]
    exact List.perm_insertionSort apptGE _
  · have he : List.filter (matchesFilter (some u) (some v)) appts =
        (appts.filter (fun a => a.userId == some u)).filter
          (fun a => a.stylistId == v) := by
      rw [show matchesFilter (some u) (some v) =
        (fun a : Appointment => (a.userId == some u) && (a.stylistId == v))
        from funext fun _ => rfl]
      rw [List.filter_filter]
      simp [Bool.and_comm]
    rw [he]
    exact List.perm_insertionSort apptGE _

/-- C8: with a stored credential found under the normalized email, a
legacy plaintext record (no bcrypt marker) is verified by exact string
equality of the trimmed password, and on a match the stored record is
overwritten with its hash in the state the handler returns; a marked
(hashed) record is verified through the hash-comparison function and is
left untouched. -/
theorem loginUser_verification_and_migration
    (bcryptCompare : String → String → Bool) (hashPassword : String → String)
    (em pw : String) (credentials : List (String × String))
    (users : List UserRec) (stored : String)
    (hem : em ≠ "") (hpw : pw ≠ "")
    (hlook : mapGet credentials (jsToLower (jsTrim em)) = some stored)
    (hne : stored ≠ "") :
    (isPasswordHashed stored = false →
      (jsTrim pw ≠ stored →
        loginUser bcryptCompare hashPassword (some em) (some pw) credentials
          users = (credentials, LoginResult.invalidCredentials)) ∧
      (jsTrim pw = stored →
        (loginUser bcryptCompare hashPassword (some em) (some pw) credentials
          users).1 =
        mapSet credentials (jsToLower (jsTrim em))
          (hashPassword (jsTrim pw)))) ∧
    (isPasswordHashed stored = true →
      (bcryptCompare (jsTrim pw) stored = false →
        loginUser bcryptCompare hashPassword (some em) (some pw) credentials
          users = (credentials, LoginResult.invalidCredentials)) ∧
      (bcryptCompare (jsTrim pw) stored = true →
        (loginUser bcryptCompare hashPassword (some em) (some pw) credentials
          users).1 = credentials)) := by
  have hcond : ¬(em = "" ∨ pw = "") := not_or.mpr ⟨hem, hpw⟩
  constructor
  · intro hlegacy
    have hmark : ¬(jsStartsWith stored "$2a$" || jsStartsWith stored "$2b$") = true := by
      simpa [isPasswordHashed] using hlegacy
    have hcp : comparePassword bcryptCompare (jsTrim pw) stored =
        (jsTrim pw == stored) := by
      simp only [comparePassword, if_neg hmark]
    constructor
    · intro hneq
      have hcpf : comparePassword bcryptCompare (jsTrim pw) stored = false := by
        rw [hcp]
        exact beq_false_of_ne hneq
      simp [loginUser, if_neg hcond, hlook, if_neg hne, hcpf]
    · intro heq
      have hcpt : ¬(comparePassword bcryptCompare (jsTrim pw) stored = false) := by
        rw [hcp, heq]
        simp
      simp only [loginUser, if_neg hcond, hlook, if_neg hne, if_neg hcpt,
        hlegacy, if_pos rfl]
      rcases q : users.find? (fun u => jsToLower u.email == jsToLower (jsTrim em)) with _ | u <;>
        simp [q]
  · intro hhashed
    have hmark : (jsStartsWith stored "$2a$" || jsStartsWith stored "$2b$") = true := by
      simpa [isPasswordHashed] using hhashed
    have hcp : comparePassword bcryptCompare (jsTrim pw) stored =
        bcryptCompare (jsTrim pw) stored := by
      simp only [comparePassword, if_pos hmark]
    constructor
    · intro hbf
      have hcpf : comparePassword bcryptCompare (jsTrim pw) stored = false := by
        rw [hcp, hbf]
      simp [loginUser, if_neg hcond, hlook, if_neg hne, hcpf]
    · intro hbt
      have hcpt : ¬(comparePassword bcryptCompare (jsTrim pw) stored = false) := by
        rw [hcp, hbt]
        simp
      simp only [loginUser, if_neg hcond, hlook, if_neg hne, if_neg hcpt,
        hhashed]
      rcases q : users.find? (fun u => jsToLower u.email == jsToLower (jsTrim em)) with _ | u <;>
        simp [q]

/-- Witness for C8: a legacy plaintext record matching the password is
re-hashed in the returned credential store. -/
theorem loginUser_verification_and_migration_witness :
    (("a@x.com" : String) ≠ "" ∧ ("pw" : String) ≠ "" ∧
      mapGet [("a@x.com", "pw")] (jsToLower (jsTrim "a@x.com")) = some "pw" ∧
      ("pw" : String) ≠ "") ∧
    ((isPasswordHashed "pw" = false →
      (jsTrim "pw" ≠ "pw" →
        loginUser exBcryptCompare exHashPassword (some "a@x.com") (some "pw")
          [("a@x.com", "pw")] [exUser] =
        ([("a@x.com", "pw")], LoginResult.invalidCredentials)) ∧
      (jsTrim "pw" = "pw" →
        (loginUser exBcryptCompare exHashPassword (some "a@x.com") (some "pw")
          [("a@x.com", "pw")] [exUser]).1 =
        mapSet [("a@x.com", "pw")] (jsToLower (jsTrim "a@x.com"))
          (exHashPassword (jsTrim "pw")))) ∧
    (isPasswordHashed "pw" = true →
      (exBcryptCompare (jsTrim "pw") "pw" = false →
        loginUser exBcryptCompare exHashPassword (some "a@x.com") (some "pw")
          [("a@x.com", "pw")] [exUser] =
        ([("a@x.com", "pw")], LoginResult.invalidCredentials)) ∧
      (exBcryptCompare (jsTrim "pw") "pw" = true →
        (loginUser exBcryptCompare exHashPassword (some "a@x.com") (some "pw")
          [("a@x.com", "pw")] [exUser]).1 = [("a@x.com", "pw")]))) :=
  ⟨⟨by decide, by decide, rfl, by decide⟩,
    loginUser_verification_and_migration exBcryptCompare exHashPassword
      "a@x.com" "pw" [("a@x.com", "pw")] [exUser] "pw" (by decide) (by decide)
      rfl (by decide)⟩
